import Mathlib

/-!
Verification development for the SPIN repository (UQatKIT/SPIN).

The repository wraps the hippylib inexact Newton-CG solver:
src/spin/hippylib/optimization.py contains the settings/result data classes and the
NewtonCGSolver wrapper (input validation, numpy/dolfin conversion, result assembly),
and src/spin/fenics/converter.py contains the conversion boundary between flat
dolfin dof vectors and component-shaped numpy arrays.

Scalars are embedded as rationals (the Python code computes with IEEE floats; all
properties checked here are control-flow and data-flow properties that do not depend
on rounding).  Vectors are lists of rationals.  Fallible Python code (raised
exceptions) is embedded as Except values.

The Newton-CG driver itself lives in the wrapped hippylib library, whose code is not
part of the repository sources; the driver, the settings validation, and the solver
instance state are therefore modelled from the specification, as marked on the
corresponding definitions.
-/

namespace Spin

abbrev Vec := List ℚ

/-- Inner product of two coefficient vectors (linear-algebra capability of the
PDE layer, spec section 2 component 1). -/
def vdot (x y : Vec) : ℚ := (List.zipWith (fun a b => a * b) x y).sum

/-- Scaled vector sum a * x + y (axpy capability of the linear-algebra layer). -/
def axpy (a : ℚ) (x y : Vec) : Vec := List.zipWith (fun xi yi => a * xi + yi) x y

/-- Negation of a vector. -/
def vneg (x : Vec) : Vec := x.map (fun c => -c)

/-- The zero vector of a given length. -/
def vzero (n : ℕ) : Vec := List.replicate n 0

/-- Configuration of the Newton-CG solver, from the SolverSettings dataclass in
src/spin/hippylib/optimization.py, with the same default values.  The Python
dataclass itself stores whatever values it is given; domain validation is a
separate step (mkSolverSettings below).  Iteration counts are embedded as naturals:
a negative Python bound makes the bounded loops run zero times, exactly as the
bound 0 does. -/
structure SolverSettings where
  relative_tolerance : ℚ := 1 / 1000000
  absolute_tolerance : ℚ := 1 / 1000000000000
  gradient_projection_tolerance : ℚ := 1 / 1000000000000000000
  max_num_newton_iterations : ℕ := 20
  num_gauss_newton_iterations : ℕ := 5
  coarsest_tolerance_cg : ℚ := 1 / 2
  max_num_cg_iterations : ℕ := 100
  armijo_line_search_constant : ℚ := 1 / 10000
  max_num_line_search_iterations : ℕ := 10
  verbose : Bool := true
deriving DecidableEq

/-- Every field of the settings lies in its declared domain (spec section 3 table):
tolerances and the Armijo constant in the open interval (0,1), iteration bounds
positive. -/
def settingsValid (s : SolverSettings) : Prop :=
  0 < s.relative_tolerance ∧ s.relative_tolerance < 1 ∧
  0 < s.absolute_tolerance ∧ s.absolute_tolerance < 1 ∧
  0 < s.gradient_projection_tolerance ∧ s.gradient_projection_tolerance < 1 ∧
  0 < s.max_num_newton_iterations ∧
  0 < s.num_gauss_newton_iterations ∧
  0 < s.coarsest_tolerance_cg ∧ s.coarsest_tolerance_cg < 1 ∧
  0 < s.max_num_cg_iterations ∧
  0 < s.armijo_line_search_constant ∧ s.armijo_line_search_constant < 1 ∧
  0 < s.max_num_line_search_iterations

instance (s : SolverSettings) : Decidable (settingsValid s) := by
  unfold settingsValid
  infer_instance

/-- Reasons the modelled Newton-CG driver can stop with; the closed enumerated set of
spec section 4.2. -/
inductive TerminationReason where
  | CONVERGED
  | MAX_ITERATIONS_REACHED
  | LINE_SEARCH_FAILURE
  | CG_INDEFINITE_ON_FIRST_ITERATION
  | CG_MAX_ITERATIONS_REACHED
deriving DecidableEq

/-- The reduced-space model collaborator (spec section 4.1): cost, gradient and
Hessian action are black-box capabilities; the norm is part of the external
linear-algebra capability set; the forward and adjoint PDE solves produce the state
and adjoint vectors reported alongside the optimal parameter. -/
structure Model where
  cost : Vec → ℚ
  gradient : Vec → Vec
  hessApply : Bool → Vec → Vec → Vec
  norm : Vec → ℚ
  solveFwd : Vec → Vec
  solveAdj : Vec → Vec

/-- Status tag returned by the truncated-CG inner solver (spec section 4.3). -/
inductive CGStatus where
  | converged
  | negCurvature
  | maxIter
deriving DecidableEq

/-- Output of the truncated-CG inner solver: the direction found so far, the status
tag, and how many CG updates were applied before stopping. -/
structure CGResult where
  direction : Vec
  status : CGStatus
  iterations : ℕ
deriving DecidableEq

/-- Modelled from the spec: one round of the Steihaug truncated-CG recurrence of
section 4.3 (the implementation wrapped from hippylib, CGSolverSteihaug, is not part
of the repository sources).  Stops on nonpositive curvature, on the relative residual
tolerance, or when the iteration budget is exhausted. -/
def cgIterate (M : Model) (applyH : Vec → Vec) (eta gnorm : ℚ) :
    ℕ → Vec → Vec → Vec → ℕ → CGResult
  | 0, d, _r, _p, iters => ⟨d, CGStatus.maxIter, iters⟩
  | fuel + 1, d, r, p, iters =>
    let Hp := applyH p
    let kappa := vdot p Hp
    if kappa ≤ 0 then ⟨d, CGStatus.negCurvature, iters⟩
    else
      let rr := vdot r r
      let alpha := rr / kappa
      let dNext := axpy alpha p d
      let rNext := axpy (-alpha) Hp r
      if M.norm rNext ≤ eta * gnorm then ⟨dNext, CGStatus.converged, iters + 1⟩
      else
        let beta := vdot rNext rNext / rr
        cgIterate M applyH eta gnorm fuel dNext rNext (axpy beta p rNext) (iters + 1)

/-- Modelled from the spec: the truncated-CG inner solve of H d = -g (section 4.3),
started from the zero direction with residual -g. -/
def runCG (M : Model) (applyH : Vec → Vec) (eta gnorm : ℚ) (maxIt : ℕ) (g : Vec) :
    CGResult :=
  cgIterate M applyH eta gnorm maxIt (vzero g.length) (vneg g) (vneg g) 0

/-- Modelled from the spec: the Armijo backtracking loop of section 4.4, halving the
step size until the sufficient-decrease condition holds or the budget runs out. -/
def armijoBacktrack (M : Model) (c : ℚ) (p d : Vec) (c0 gd : ℚ) : ℕ → ℚ → Option ℚ
  | 0, _ => none
  | fuel + 1, alpha =>
    if M.cost (axpy alpha d p) ≤ c0 + c * alpha * gd then some alpha
    else armijoBacktrack M c p d c0 gd fuel (alpha / 2)

/-- Modelled from the spec: the Armijo line search of section 4.4.  The directional
derivative must be sufficiently negative (below minus the gradient projection
tolerance) before backtracking starts; otherwise the search fails immediately. -/
def armijoSearch (M : Model) (c gdmTol : ℚ) (maxIt : ℕ) (p d g : Vec) : Option ℚ :=
  let gd := vdot g d
  if gd < -gdmTol then armijoBacktrack M c p d (M.cost p) gd maxIt 1
  else none

/-- The gradient-norm convergence threshold of spec section 4.2 step 2:
max(absolute_tolerance, relative_tolerance times the initial gradient norm). -/
def gradientThreshold (S : SolverSettings) (g0norm : ℚ) : ℚ :=
  max S.absolute_tolerance (S.relative_tolerance * g0norm)

/-- Outcome of one outer Newton iteration: either stop with a reason, a success flag,
the current iterate and its gradient norm, or continue from a new iterate with the
tightened inner tolerance. -/
inductive StepOutcome where
  | stop (reason : TerminationReason) (convergedFlag : Bool) (p : Vec) (gradNorm : ℚ)
  | next (p : Vec) (eta : ℚ)
deriving DecidableEq

/-- Modelled from the spec: one outer Newton iteration of section 4.2 steps 1 to 8
(the wrapped hippylib driver ReducedSpaceNewtonCG is not part of the repository
sources).  Convergence test first; then Hessian-mode selection, monotone
Eisenstat-Walker tolerance, truncated CG, and Armijo line search.  Negative curvature
on the very first CG step with no progress stops the run with
CG_INDEFINITE_ON_FIRST_ITERATION (the policy fixed per section 9); a CG budget of
zero updates stops it with CG_MAX_ITERATIONS_REACHED. -/
def outerStep (S : SolverSettings) (M : Model) (g0norm etaPrev : ℚ) (p : Vec) (k : ℕ) :
    StepOutcome :=
  let g := M.gradient p
  let gn := M.norm g
  if gn ≤ gradientThreshold S g0norm then
    StepOutcome.stop TerminationReason.CONVERGED true p gn
  else
    let useGN := decide (k < S.num_gauss_newton_iterations)
    let eta := min etaPrev (min S.coarsest_tolerance_cg (gn / g0norm))
    let cg := runCG M (M.hessApply useGN p) eta gn S.max_num_cg_iterations g
    if cg.status = CGStatus.negCurvature ∧ cg.iterations = 0 then
      StepOutcome.stop TerminationReason.CG_INDEFINITE_ON_FIRST_ITERATION false p gn
    else if cg.status = CGStatus.maxIter ∧ cg.iterations = 0 then
      StepOutcome.stop TerminationReason.CG_MAX_ITERATIONS_REACHED false p gn
    else
      match armijoSearch M S.armijo_line_search_constant S.gradient_projection_tolerance
          S.max_num_line_search_iterations p cg.direction g with
      | none => StepOutcome.stop TerminationReason.LINE_SEARCH_FAILURE false p gn
      | some alpha => StepOutcome.next (axpy alpha cg.direction p) eta

/-- Result record of the modelled driver: optimal parameter, success flag, outer
iteration count, termination reason, final gradient norm (spec section 3,
SolverResult). -/
structure CoreResult where
  optimal_parameter : Vec
  converged : Bool
  num_iterations : ℕ
  termination_reason : TerminationReason
  final_gradient_norm : ℚ
deriving DecidableEq

/-- Modelled from the spec: the outer Newton loop of section 4.2 (wrapped hippylib
driver, not in the repository sources).  The remaining-iteration budget is checked at
loop entry, so a budget of zero stops immediately with MAX_ITERATIONS_REACHED and an
unchanged iterate; the initial gradient norm g0norm is fixed for the whole run. -/
def outerLoop (S : SolverSettings) (M : Model) (g0norm : ℚ) :
    ℕ → ℚ → Vec → ℕ → CoreResult
  | 0, _, p, k => ⟨p, false, k, TerminationReason.MAX_ITERATIONS_REACHED,
      M.norm (M.gradient p)⟩
  | rem + 1, etaPrev, p, k =>
    match outerStep S M g0norm etaPrev p k with
    | StepOutcome.stop reason conv q gn => ⟨q, conv, k, reason, gn⟩
    | StepOutcome.next q eta => outerLoop S M g0norm rem eta q (k + 1)

/-- Modelled from the spec: a full run of the Newton-CG driver (section 4.2) on flat
dof vectors.  Computes the initial gradient norm once and runs the outer loop with
the iteration cap as budget, starting from the coarsest inner tolerance. -/
def coreSolve (S : SolverSettings) (M : Model) (initial_guess : Vec) : CoreResult :=
  let g0norm := M.norm (M.gradient initial_guess)
  outerLoop S M g0norm S.max_num_newton_iterations S.coarsest_tolerance_cg
    initial_guess 0

/-- A dolfin function space as seen by the converter in src/spin/fenics/converter.py:
the number of sub-spaces, the dof index list of each sub-space, and the total
dimension. -/
structure FunctionSpace where
  numSubSpaces : ℕ
  subDofs : ℕ → List ℕ
  dim : ℕ

/-- Errors numpy raises inside np.stack: stacking an empty list of arrays, or arrays
of unequal shapes. -/
inductive ConvError where
  | emptyStack
  | raggedStack
deriving DecidableEq

/-- Fancy indexing vector[dofs] of a flat dof vector by a list of indices, as in
convert_to_numpy.  The converter is used with in-range dof maps; out-of-range
indices read the default 0 here (numpy would raise). -/
def npIndex (v : Vec) (dofs : List ℕ) : Vec := dofs.map (fun i => v.getD i 0)

/-- np.stack(components, axis=0): fails on an empty component list and on components
of different lengths, otherwise returns the components as the rows of a
two-dimensional array. -/
def npStack (components : List Vec) : Except ConvError (List Vec) :=
  match components with
  | [] => Except.error ConvError.emptyStack
  | c :: cs =>
    if cs.all (fun x => x.length = c.length) then Except.ok (c :: cs)
    else Except.error ConvError.raggedStack

/-- convert_to_numpy from src/spin/fenics/converter.py: read the local dof vector
(the identity in this embedding), slice out each sub-space component by its dof map,
and stack the components into a (num_components, dofs_per_component) array. -/
def convert_to_numpy (vector : Vec) (function_space : FunctionSpace) :
    Except ConvError (List Vec) :=
  npStack ((List.range function_space.numSubSpaces).map
    (fun i => npIndex vector (function_space.subDofs i)))

/-- ndarray.flatten(): concatenate the rows of a two-dimensional array.  A
one-dimensional array is embedded as a single row, for which flatten is the
identity, as in numpy. -/
def npFlatten (array : List Vec) : Vec := array.foldr (fun r acc => r ++ acc) []

/-- convert_to_dolfin from src/spin/fenics/converter.py: create a fresh dolfin
function on the space and set its local dof vector to array.flatten().  The value of
the resulting function is its dof vector here. -/
def convert_to_dolfin (array : List Vec) (_function_space : FunctionSpace) : Vec :=
  npFlatten array

/-- ndarray.copy(): a fresh buffer holding the same values. -/
def npCopy (v : Vec) : Vec := v.map id

/-- Errors raised by the solve wrapper: the size-validation ValueError of
NewtonCGSolver.solve, a numpy conversion error, or rejection of out-of-domain solver
settings. -/
inductive SolveError where
  | dimensionMismatch (got expected : ℕ)
  | conversionError (e : ConvError)
  | invalidSettings
deriving DecidableEq

/-- Modelled from the spec: construction-time validation of SolverSettings as stated
in spec sections 3 and 7 (enforced in the package through beartype decoration of the
dataclass fields, which is outside the sources under src).  Returns the settings
unchanged when every field lies in its declared domain and fails otherwise. -/
def mkSolverSettings (s : SolverSettings) : Except SolveError SolverSettings :=
  if settingsValid s then Except.ok s else Except.error SolveError.invalidSettings

/-- Result record of the solve wrapper, from the SolverResult dataclass in
src/spin/hippylib/optimization.py: converted optimal parameter, forward and adjoint
solutions, plus the driver diagnostics. -/
structure SolverResult where
  optimal_parameter : List Vec
  forward_solution : List Vec
  adjoint_solution : List Vec
  converged : Bool
  num_iterations : ℕ
  termination_reason : TerminationReason
  final_gradient_norm : ℚ
deriving DecidableEq

/-- The hippylib inference model handed to the wrapper: the reduced-space model
capabilities together with the state and parameter function spaces
(problem.Vh[STATE] and problem.Vh[PARAMETER]). -/
structure InferenceModel where
  model : Model
  Vh_STATE : FunctionSpace
  Vh_PARAMETER : FunctionSpace

/-- The result-conversion tail of NewtonCGSolver.solve: convert the optimal
parameter through the parameter space and the forward and adjoint solutions (the PDE
solves at the optimal parameter) through the state space, and assemble the
SolverResult from them and the driver diagnostics. -/
def assembleResult (IM : InferenceModel) (core : CoreResult) :
    Except SolveError SolverResult :=
  let fwd := IM.model.solveFwd core.optimal_parameter
  let adj := IM.model.solveAdj core.optimal_parameter
  match convert_to_numpy core.optimal_parameter IM.Vh_PARAMETER with
  | Except.error e => Except.error (SolveError.conversionError e)
  | Except.ok optP =>
    match convert_to_numpy fwd IM.Vh_STATE with
    | Except.error e => Except.error (SolveError.conversionError e)
    | Except.ok fwdN =>
      match convert_to_numpy adj IM.Vh_STATE with
      | Except.error e => Except.error (SolveError.conversionError e)
      | Except.ok adjN =>
        Except.ok ⟨optP, fwdN, adjN, core.converged, core.num_iterations,
          core.termination_reason, core.final_gradient_norm⟩

/-- NewtonCGSolver.solve from src/spin/hippylib/optimization.py: validate the size of
the initial guess against the parameter-space dimension, convert a copy of the guess
to a dolfin vector, run the wrapped Newton-CG driver, and convert the optimal
parameter and the forward and adjoint solutions back to numpy arrays. -/
def NewtonCGSolver.solve (S : SolverSettings) (IM : InferenceModel)
    (initial_guess : Vec) : Except SolveError SolverResult :=
  if initial_guess.length = IM.Vh_PARAMETER.dim then
    assembleResult IM
      (coreSolve S IM.model (convert_to_dolfin [npCopy initial_guess] IM.Vh_PARAMETER))
  else
    Except.error
      (SolveError.dimensionMismatch initial_guess.length IM.Vh_PARAMETER.dim)

/-- A store of numpy buffers; an array reference is an index into the store. -/
abbrev Heap := List Vec

/-- Read the buffer behind a reference. -/
def heapGet (h : Heap) (r : ℕ) : Vec := h.getD r []

/-- NewtonCGSolver.solve with its buffer discipline made explicit: the caller passes
a reference to the initial-guess buffer; the call allocates a fresh copy of the guess
(initial_guess.copy()) and a fresh dolfin dof vector that set_local fills with the
flattened copy.  Those two allocations are the only writes the call performs, so the
store is only ever extended. -/
def NewtonCGSolver.solveOnHeap (S : SolverSettings) (IM : InferenceModel)
    (h : Heap) (r : ℕ) : Except SolveError SolverResult × Heap :=
  let guess := heapGet h r
  if guess.length = IM.Vh_PARAMETER.dim then
    (NewtonCGSolver.solve S IM guess, h ++ [npCopy guess, npFlatten [npCopy guess]])
  else (NewtonCGSolver.solve S IM guess, h)

/-- State of a NewtonCGSolver instance between solve calls: the configuration and
inference model fixed at construction, plus the diagnostic attributes the wrapped
driver object keeps (iteration count, convergence flag, reason, final gradient
norm). -/
structure NewtonCGSolverState where
  settings : SolverSettings
  inference_model : InferenceModel
  it : ℕ
  driver_converged : Bool
  reason : TerminationReason
  final_grad_norm : ℚ

/-- Modelled from the spec: constructing a NewtonCGSolver (the wrapped driver object
and its diagnostic attributes live in hippylib, outside the sources under src). -/
def initSolver (S : SolverSettings) (IM : InferenceModel) : NewtonCGSolverState :=
  ⟨S, IM, 0, false, TerminationReason.MAX_ITERATIONS_REACHED, 0⟩

/-- Modelled from the spec: a solve call on a solver instance (spec section 5: each
call owns its vectors for its lifetime and recomputes from scratch).  The run is a
pure function of the configuration, the model, and the guess; the instance only
records the diagnostics of the completed run. -/
def NewtonCGSolverState.solveCall (st : NewtonCGSolverState) (guess : Vec) :
    Except SolveError SolverResult × NewtonCGSolverState :=
  match NewtonCGSolver.solve st.settings st.inference_model guess with
  | Except.ok r =>
    (Except.ok r, ⟨st.settings, st.inference_model, r.num_iterations, r.converged,
      r.termination_reason, r.final_gradient_norm⟩)
  | Except.error e => (Except.error e, st)

/-- A one-dimensional strictly convex quadratic model (cost half the squared norm,
identity Hessian), with the sum of absolute values as the external norm; used as the
concrete model of the witnesses. -/
def modelQuad : Model where
  cost := fun v => vdot v v / 2
  gradient := fun v => v
  hessApply := fun _ _ d => d
  norm := fun v => (v.map (fun c => |c|)).sum
  solveFwd := fun v => v
  solveAdj := fun v => v

/-- Valid solver settings with simple rational values, used by the witnesses. -/
def settingsSimple : SolverSettings where
  relative_tolerance := 1 / 2
  absolute_tolerance := 1 / 2
  gradient_projection_tolerance := 1 / 2
  max_num_newton_iterations := 3
  num_gauss_newton_iterations := 1
  coarsest_tolerance_cg := 1 / 2
  max_num_cg_iterations := 4
  armijo_line_search_constant := 1 / 2
  max_num_line_search_iterations := 5
  verbose := true

/-- Settings with the outer iteration cap set to zero and all other fields at their
defaults; not constructible through validation, but representable in the dataclass. -/
def settingsZeroIter : SolverSettings := { max_num_newton_iterations := 0 }

/-- Out-of-domain settings: a relative tolerance of 2 violates the domain (0,1). -/
def settingsBad : SolverSettings := { relative_tolerance := 2 }

/-- A function space with a single scalar sub-space of dimension one. -/
def fsScalar1 : FunctionSpace where
  numSubSpaces := 1
  subDofs := fun _ => [0]
  dim := 1

/-- A plain scalar function space: dimension one but zero sub-spaces, as
num_sub_spaces() reports for an unmixed dolfin space. -/
def fsNoSub : FunctionSpace where
  numSubSpaces := 0
  subDofs := fun _ => []
  dim := 1

/-- A two-component space of dimension four with interleaved sub-space dof maps, the
layout a dolfin vector function space typically has. -/
def fsInterleaved : FunctionSpace where
  numSubSpaces := 2
  subDofs := fun i => if i = 0 then [0, 2] else [1, 3]
  dim := 4

/-- Inference model over the quadratic model with convertible scalar spaces. -/
def imQuad : InferenceModel where
  model := modelQuad
  Vh_STATE := fsScalar1
  Vh_PARAMETER := fsScalar1

/-- Inference model whose parameter space is a plain scalar space with zero
sub-spaces: dimension checks pass for size-one guesses, but numpy conversion of the
result is impossible. -/
def imScalar : InferenceModel where
  model := modelQuad
  Vh_STATE := fsScalar1
  Vh_PARAMETER := fsNoSub

/-- C6: with the outer iteration cap set to zero, the driver stops immediately with
MAX_ITERATIONS_REACHED after zero iterations, reporting the initial guess unchanged
and no convergence. -/
theorem zero_max_iterations_returns_initial_guess (S : SolverSettings) (M : Model)
    (guess : Vec) (h : S.max_num_newton_iterations = 0) :
    (coreSolve S M guess).termination_reason =
      TerminationReason.MAX_ITERATIONS_REACHED ∧
    (coreSolve S M guess).optimal_parameter = guess ∧
    (coreSolve S M guess).num_iterations = 0 ∧
    (coreSolve S M guess).converged = false := by
  have hc : coreSolve S M guess =
      outerLoop S M (M.norm (M.gradient guess)) S.max_num_newton_iterations
        S.coarsest_tolerance_cg guess 0 := rfl
  rw [hc, h]
  exact ⟨rfl, rfl, rfl, rfl⟩

/-- Witness for C6 at concrete inputs: cap zero on the quadratic model leaves the
guess unchanged and reports the iteration cap. -/
theorem zero_max_iterations_witness :
    settingsZeroIter.max_num_newton_iterations = 0 ∧
    (coreSolve settingsZeroIter modelQuad [1]).optimal_parameter = [1] ∧
    (coreSolve settingsZeroIter modelQuad [1]).termination_reason =
      TerminationReason.MAX_ITERATIONS_REACHED := by
  refine ⟨rfl, ?_, ?_⟩
  · exact (zero_max_iterations_returns_initial_guess settingsZeroIter modelQuad
      [1] rfl).2.1
  · exact (zero_max_iterations_returns_initial_guess settingsZeroIter modelQuad
      [1] rfl).1

/-- C4: settings construction succeeds exactly on settings whose every field lies in
its declared domain, and an out-of-domain settings object is never produced: whatever
construction returns is the validated input itself. -/
theorem settings_validation_rejects_out_of_domain (s : SolverSettings) :
    ((mkSolverSettings s).isOk = true ↔ settingsValid s) ∧
    (∀ t, mkSolverSettings s = Except.ok t → settingsValid t ∧ t = s) := by
  constructor
  · rw [mkSolverSettings]
    by_cases hv : settingsValid s
    · simp [hv, Except.isOk, Except.toBool]
    · simp [hv, Except.isOk, Except.toBool]
  · intro t ht
    rw [mkSolverSettings] at ht
    by_cases hv : settingsValid s
    · rw [if_pos hv] at ht
      cases ht
      exact ⟨hv, rfl⟩
    · rw [if_neg hv] at ht
      cases ht

/-- Witness for C4 at concrete inputs: a relative tolerance of 2 is rejected, while
the simple valid settings are accepted. -/
theorem settings_validation_witness :
    (mkSolverSettings settingsBad).isOk = false ∧
    (mkSolverSettings settingsSimple).isOk = true := by
  constructor
  · have h := (settings_validation_rejects_out_of_domain settingsBad).1
    cases h2 : (mkSolverSettings settingsBad).isOk
    · rfl
    · exact absurd (h.mp h2) (by norm_num [settingsValid, settingsBad])
  · exact (settings_validation_rejects_out_of_domain settingsSimple).1.mpr
      (by norm_num [settingsValid, settingsSimple])

/-- The result-conversion tail never produces a dimension-mismatch error: its only
failures are numpy conversion errors. -/
theorem assembleResult_no_dimension_error (IM : InferenceModel) (core : CoreResult)
    (n m : ℕ) :
    assembleResult IM core ≠ Except.error (SolveError.dimensionMismatch n m) := by
  unfold assembleResult
  dsimp only
  split
  · simp
  · split
    · simp
    · split
      · simp
      · simp

/-- C1: a wrong-size initial guess is rejected with the dimension-mismatch validation
error, and the outcome is computed from the sizes alone, identically for every
inference model with the same declared parameter dimension (so no model, conversion,
or PDE-layer work is involved); a right-size guess is never rejected with a
dimension mismatch. -/
theorem solve_dimension_validation (S : SolverSettings) (IM : InferenceModel)
    (guess : Vec) :
    (guess.length ≠ IM.Vh_PARAMETER.dim →
      NewtonCGSolver.solve S IM guess =
        Except.error
          (SolveError.dimensionMismatch guess.length IM.Vh_PARAMETER.dim) ∧
      ∀ IM2 : InferenceModel, IM2.Vh_PARAMETER.dim = IM.Vh_PARAMETER.dim →
        NewtonCGSolver.solve S IM2 guess = NewtonCGSolver.solve S IM guess) ∧
    (guess.length = IM.Vh_PARAMETER.dim →
      ∀ n m, NewtonCGSolver.solve S IM guess ≠
        Except.error (SolveError.dimensionMismatch n m)) := by
  constructor
  · intro h
    have he : NewtonCGSolver.solve S IM guess =
        Except.error
          (SolveError.dimensionMismatch guess.length IM.Vh_PARAMETER.dim) := by
      unfold NewtonCGSolver.solve
      rw [if_neg h]
    refine ⟨he, ?_⟩
    intro IM2 h2
    have h2ne : guess.length ≠ IM2.Vh_PARAMETER.dim := by
      rw [h2]
      exact h
    rw [he]
    unfold NewtonCGSolver.solve
    rw [if_neg h2ne, h2]
  · intro h n m
    unfold NewtonCGSolver.solve
    rw [if_pos h]
    exact assembleResult_no_dimension_error IM _ n m

/-- Witness for C1 at concrete inputs: a guess of size two against parameter
dimension one is rejected by sizes alone (the same error for a different model of
the same dimension), and a size-one guess is not rejected. -/
theorem solve_dimension_validation_witness :
    NewtonCGSolver.solve settingsSimple imQuad [1, 2] =
      Except.error (SolveError.dimensionMismatch 2 1) ∧
    NewtonCGSolver.solve settingsSimple imScalar [1, 2] =
      NewtonCGSolver.solve settingsSimple imQuad [1, 2] ∧
    NewtonCGSolver.solve settingsSimple imQuad [1] ≠
      Except.error (SolveError.dimensionMismatch 1 1) := by
  have h1 := (solve_dimension_validation settingsSimple imQuad [1, 2]).1
    (by decide)
  have h2 := (solve_dimension_validation settingsSimple imQuad [1]).2
    (by decide) 1 1
  exact ⟨h1.1, h1.2 imScalar rfl, h2⟩

/-- An outer iteration stops with CONVERGED at the current iterate exactly when the
current gradient norm is within the convergence threshold. -/
theorem outerStep_converged_iff (S : SolverSettings) (M : Model)
    (g0norm etaPrev : ℚ) (p : Vec) (k : ℕ) :
    outerStep S M g0norm etaPrev p k =
      StepOutcome.stop TerminationReason.CONVERGED true p (M.norm (M.gradient p)) ↔
    M.norm (M.gradient p) ≤ gradientThreshold S g0norm := by
  constructor
  · intro h
    unfold outerStep at h
    dsimp only at h
    split at h
    · assumption
    · split at h
      · simp at h
      · split at h
        · simp at h
        · split at h
          · simp at h
          · simp at h
  · intro h
    unfold outerStep
    dsimp only
    rw [if_pos h]

/-- Whenever an outer iteration stops with CONVERGED, the gradient norm it reports is
within the convergence threshold. -/
theorem outerStep_stop_converged_le (S : SolverSettings) (M : Model)
    (g0norm etaPrev : ℚ) (p : Vec) (k : ℕ) (conv : Bool) (q : Vec) (gn : ℚ)
    (h : outerStep S M g0norm etaPrev p k =
      StepOutcome.stop TerminationReason.CONVERGED conv q gn) :
    gn ≤ gradientThreshold S g0norm := by
  unfold outerStep at h
  dsimp only at h
  split at h
  · cases h
    assumption
  · split at h
    · simp at h
    · split at h
      · simp at h
      · split at h
        · simp at h
        · simp at h

/-- Whenever an outer iteration stops, its success flag is true exactly when its
reason is CONVERGED. -/
theorem outerStep_stop_flag (S : SolverSettings) (M : Model)
    (g0norm etaPrev : ℚ) (p : Vec) (k : ℕ) (reason : TerminationReason)
    (conv : Bool) (q : Vec) (gn : ℚ)
    (h : outerStep S M g0norm etaPrev p k = StepOutcome.stop reason conv q gn) :
    conv = true ↔ reason = TerminationReason.CONVERGED := by
  unfold outerStep at h
  dsimp only at h
  split at h
  · cases h
    simp
  · split at h
    · cases h
      simp
    · split at h
      · cases h
        simp
      · split at h
        · cases h
          simp
        · cases h

/-- Unfolding of the outer loop with an exhausted budget. -/
theorem outerLoop_zero (S : SolverSettings) (M : Model) (g0norm etaPrev : ℚ)
    (p : Vec) (k : ℕ) :
    outerLoop S M g0norm 0 etaPrev p k =
      ⟨p, false, k, TerminationReason.MAX_ITERATIONS_REACHED,
        M.norm (M.gradient p)⟩ := rfl

/-- Unfolding of the outer loop with remaining budget. -/
theorem outerLoop_succ (S : SolverSettings) (M : Model) (g0norm : ℚ) (n : ℕ)
    (etaPrev : ℚ) (p : Vec) (k : ℕ) :
    outerLoop S M g0norm (n + 1) etaPrev p k =
      (match outerStep S M g0norm etaPrev p k with
       | StepOutcome.stop reason conv q gn => ⟨q, conv, k, reason, gn⟩
       | StepOutcome.next q eta => outerLoop S M g0norm n eta q (k + 1)) := rfl

/-- Any outer-loop run that reports CONVERGED reports a final gradient norm within
the convergence threshold fixed by g0norm. -/
theorem outerLoop_converged_le (S : SolverSettings) (M : Model) (g0norm : ℚ) :
    ∀ rem etaPrev p k,
      (outerLoop S M g0norm rem etaPrev p k).termination_reason =
        TerminationReason.CONVERGED →
      (outerLoop S M g0norm rem etaPrev p k).final_gradient_norm ≤
        gradientThreshold S g0norm := by
  intro rem
  induction rem with
  | zero =>
    intro etaPrev p k h
    rw [outerLoop_zero] at h
    cases h
  | succ n ih =>
    intro etaPrev p k h
    rw [outerLoop_succ] at h ⊢
    cases hstep : outerStep S M g0norm etaPrev p k with
    | stop reason conv q gn =>
      rw [hstep] at h
      dsimp only at h ⊢
      subst h
      exact outerStep_stop_converged_le S M g0norm etaPrev p k conv q gn hstep
    | next q eta =>
      rw [hstep] at h
      dsimp only at h ⊢
      exact ih eta q (k + 1) h

/-- In any outer-loop run, the success flag is true exactly when the reported reason
is CONVERGED. -/
theorem outerLoop_flag (S : SolverSettings) (M : Model) (g0norm : ℚ) :
    ∀ rem etaPrev p k,
      ((outerLoop S M g0norm rem etaPrev p k).converged = true ↔
       (outerLoop S M g0norm rem etaPrev p k).termination_reason =
         TerminationReason.CONVERGED) := by
  intro rem
  induction rem with
  | zero =>
    intro etaPrev p k
    rw [outerLoop_zero]
    simp
  | succ n ih =>
    intro etaPrev p k
    rw [outerLoop_succ]
    cases hstep : outerStep S M g0norm etaPrev p k with
    | stop reason conv q gn =>
      dsimp only
      exact outerStep_stop_flag S M g0norm etaPrev p k reason conv q gn hstep
    | next q eta =>
      exact ih eta q (k + 1)

/-- C2: an outer iteration of the driver stops with reason CONVERGED exactly when the
current gradient norm is at most max(absolute_tolerance, relative_tolerance times
the initial gradient norm), and any full run reported CONVERGED has its final
gradient norm within that threshold, fixed for the whole run by the gradient norm
at the initial guess. -/
theorem converged_iff_gradient_below_tolerance (S : SolverSettings) (M : Model)
    (guess : Vec) :
    (∀ etaPrev p k,
      outerStep S M (M.norm (M.gradient guess)) etaPrev p k =
        StepOutcome.stop TerminationReason.CONVERGED true p
          (M.norm (M.gradient p)) ↔
      M.norm (M.gradient p) ≤
        gradientThreshold S (M.norm (M.gradient guess))) ∧
    ((coreSolve S M guess).termination_reason = TerminationReason.CONVERGED →
      (coreSolve S M guess).final_gradient_norm ≤
        gradientThreshold S (M.norm (M.gradient guess))) := by
  constructor
  · intro etaPrev p k
    exact outerStep_converged_iff S M (M.norm (M.gradient guess)) etaPrev p k
  · intro h
    exact outerLoop_converged_le S M (M.norm (M.gradient guess))
      S.max_num_newton_iterations S.coarsest_tolerance_cg guess 0 h

/-- Unfolding of the CG recurrence with exhausted budget. -/
theorem cgIterate_zero (M : Model) (applyH : Vec → Vec) (eta gnorm : ℚ)
    (d r p : Vec) (iters : ℕ) :
    cgIterate M applyH eta gnorm 0 d r p iters = ⟨d, CGStatus.maxIter, iters⟩ := rfl

/-- Unfolding of one CG update with remaining budget. -/
theorem cgIterate_succ (M : Model) (applyH : Vec → Vec) (eta gnorm : ℚ) (fuel : ℕ)
    (d r p : Vec) (iters : ℕ) :
    cgIterate M applyH eta gnorm (fuel + 1) d r p iters =
      (if vdot p (applyH p) ≤ 0 then ⟨d, CGStatus.negCurvature, iters⟩
       else
         if M.norm (axpy (-(vdot r r / vdot p (applyH p))) (applyH p) r) ≤
             eta * gnorm then
           ⟨axpy (vdot r r / vdot p (applyH p)) p d, CGStatus.converged, iters + 1⟩
         else
           cgIterate M applyH eta gnorm fuel
             (axpy (vdot r r / vdot p (applyH p)) p d)
             (axpy (-(vdot r r / vdot p (applyH p))) (applyH p) r)
             (axpy
               (vdot (axpy (-(vdot r r / vdot p (applyH p))) (applyH p) r)
                   (axpy (-(vdot r r / vdot p (applyH p))) (applyH p) r) /
                 vdot r r)
               p (axpy (-(vdot r r / vdot p (applyH p))) (applyH p) r))
             (iters + 1)) := rfl

/-- Unfolding of the Armijo backtracking loop with exhausted budget. -/
theorem armijoBacktrack_zero (M : Model) (c : ℚ) (p d : Vec) (c0 gd alpha : ℚ) :
    armijoBacktrack M c p d c0 gd 0 alpha = none := rfl

/-- Unfolding of one Armijo backtracking trial. -/
theorem armijoBacktrack_succ (M : Model) (c : ℚ) (p d : Vec) (c0 gd : ℚ)
    (fuel : ℕ) (alpha : ℚ) :
    armijoBacktrack M c p d c0 gd (fuel + 1) alpha =
      (if M.cost (axpy alpha d p) ≤ c0 + c * alpha * gd then some alpha
       else armijoBacktrack M c p d c0 gd fuel (alpha / 2)) := rfl

/-- Witness for C2 at concrete inputs: the quadratic model from guess 1 converges,
and the theorem bounds its reported final gradient norm by the threshold. -/
theorem converged_iff_witness :
    (coreSolve settingsSimple modelQuad [1]).final_gradient_norm ≤
      gradientThreshold settingsSimple (modelQuad.norm (modelQuad.gradient [1])) := by
  have h : (coreSolve settingsSimple modelQuad [1]).termination_reason =
      TerminationReason.CONVERGED := by
    norm_num [coreSolve, outerLoop_succ, outerLoop_zero, outerStep, runCG,
      cgIterate_succ, cgIterate_zero, armijoSearch, armijoBacktrack_succ,
      armijoBacktrack_zero, gradientThreshold, vdot, axpy, vneg, vzero, modelQuad,
      settingsSimple, min_def, max_def]
  exact (converged_iff_gradient_below_tolerance settingsSimple modelQuad [1]).2 h

/-- The driver run behind coreSolve reports success exactly on reason CONVERGED. -/
theorem coreSolve_flag (S : SolverSettings) (M : Model) (guess : Vec) :
    ((coreSolve S M guess).converged = true ↔
     (coreSolve S M guess).termination_reason = TerminationReason.CONVERGED) :=
  outerLoop_flag S M (M.norm (M.gradient guess)) S.max_num_newton_iterations
    S.coarsest_tolerance_cg guess 0

/-- Every termination reason is one of the five enumerated ones. -/
theorem reason_mem_enumeration (t : TerminationReason) :
    t = TerminationReason.CONVERGED ∨
    t = TerminationReason.MAX_ITERATIONS_REACHED ∨
    t = TerminationReason.LINE_SEARCH_FAILURE ∨
    t = TerminationReason.CG_INDEFINITE_ON_FIRST_ITERATION ∨
    t = TerminationReason.CG_MAX_ITERATIONS_REACHED := by
  cases t
  · exact Or.inl rfl
  · exact Or.inr (Or.inl rfl)
  · exact Or.inr (Or.inr (Or.inl rfl))
  · exact Or.inr (Or.inr (Or.inr (Or.inl rfl)))
  · exact Or.inr (Or.inr (Or.inr (Or.inr rfl)))

/-- A successfully assembled SolverResult copies the driver diagnostics verbatim. -/
theorem assembleResult_ok_fields (IM : InferenceModel) (core : CoreResult)
    (r : SolverResult) (h : assembleResult IM core = Except.ok r) :
    r.converged = core.converged ∧
    r.termination_reason = core.termination_reason ∧
    r.num_iterations = core.num_iterations ∧
    r.final_gradient_norm = core.final_gradient_norm := by
  unfold assembleResult at h
  dsimp only at h
  split at h
  · cases h
  · split at h
    · cases h
    · split at h
      · cases h
      · cases h
        exact ⟨rfl, rfl, rfl, rfl⟩

/-- C3: every SolverResult the wrapper returns carries one of the five enumerated
termination reasons, and its converged flag is true exactly when that reason is
CONVERGED. -/
theorem termination_reason_closed_and_converged_flag (S : SolverSettings)
    (IM : InferenceModel) (guess : Vec) (r : SolverResult)
    (h : NewtonCGSolver.solve S IM guess = Except.ok r) :
    (r.converged = true ↔ r.termination_reason = TerminationReason.CONVERGED) ∧
    (r.termination_reason = TerminationReason.CONVERGED ∨
     r.termination_reason = TerminationReason.MAX_ITERATIONS_REACHED ∨
     r.termination_reason = TerminationReason.LINE_SEARCH_FAILURE ∨
     r.termination_reason = TerminationReason.CG_INDEFINITE_ON_FIRST_ITERATION ∨
     r.termination_reason = TerminationReason.CG_MAX_ITERATIONS_REACHED) := by
  refine ⟨?_, reason_mem_enumeration r.termination_reason⟩
  unfold NewtonCGSolver.solve at h
  split at h
  · have hf := assembleResult_ok_fields IM _ r h
    rw [hf.1, hf.2.1]
    exact coreSolve_flag S IM.model (convert_to_dolfin [npCopy guess] IM.Vh_PARAMETER)
  · cases h

/-- The SolverResult of the witness run: optimal parameter zero, converged in one
outer iteration with final gradient norm zero. -/
def resultExample : SolverResult :=
  ⟨[[0]], [[0]], [[0]], true, 1, TerminationReason.CONVERGED, 0⟩

/-- Witness for C3 at concrete inputs: the wrapper run on the quadratic model returns
a result whose converged flag matches its CONVERGED reason. -/
theorem termination_reason_witness :
    resultExample.converged = true ↔
      resultExample.termination_reason = TerminationReason.CONVERGED := by
  have h : NewtonCGSolver.solve settingsSimple imQuad [1] =
      Except.ok resultExample := by
    norm_num [NewtonCGSolver.solve, assembleResult, imQuad, fsScalar1, resultExample,
      convert_to_dolfin, convert_to_numpy, npStack, npIndex, npFlatten, npCopy,
      coreSolve, outerLoop_succ, outerLoop_zero, outerStep, runCG, cgIterate_succ,
      cgIterate_zero, armijoSearch, armijoBacktrack_succ, armijoBacktrack_zero,
      gradientThreshold, vdot, axpy, vneg, vzero, modelQuad, settingsSimple,
      min_def, max_def]
  exact (termination_reason_closed_and_converged_flag settingsSimple imQuad [1]
    resultExample h).1

/-- np.stack succeeds on a nonempty list of equal-length components and returns the
components themselves. -/
theorem npStack_ok (a : List Vec) (d : ℕ) (hne : a ≠ [])
    (hu : ∀ r, r ∈ a → r.length = d) : npStack a = Except.ok a := by
  cases a with
  | nil => exact absurd rfl hne
  | cons c cs =>
    unfold npStack
    have hall : cs.all (fun x => x.length = c.length) = true := by
      rw [List.all_eq_true]
      intro x hx
      have hxd := hu x (List.mem_cons_of_mem c hx)
      have hcd := hu c (List.mem_cons_self c cs)
      rw [hxd, hcd]
      exact decide_eq_true rfl
    dsimp only
    rw [if_pos hall]

/-- convert_to_numpy succeeds on any space with at least one sub-space whose
sub-space dof maps all have the same length, returning the list of sliced
components. -/
theorem convert_to_numpy_ok (fs : FunctionSpace) (v : Vec)
    (h1 : 0 < fs.numSubSpaces)
    (h2 : ∀ i, i < fs.numSubSpaces →
      (fs.subDofs i).length = (fs.subDofs 0).length) :
    convert_to_numpy v fs =
      Except.ok ((List.range fs.numSubSpaces).map
        (fun i => npIndex v (fs.subDofs i))) := by
  unfold convert_to_numpy
  apply npStack_ok _ ((fs.subDofs 0).length)
  · simp only [ne_eq, List.map_eq_nil_iff, List.range_eq_nil]
    omega
  · intro r hr
    rw [List.mem_map] at hr
    obtain ⟨i, hi, hri⟩ := hr
    rw [List.mem_range] at hi
    subst hri
    simp only [npIndex, List.length_map]
    exact h2 i hi

/-- C5 counterexample: a size-correct solve call on a parameter space with zero
sub-spaces fails with a conversion error after the driver run, instead of returning
a SolverResult; input validation is not the only hard error path. -/
theorem solve_raises_beyond_validation_counterexample :
    ([1] : Vec).length = imScalar.Vh_PARAMETER.dim ∧
    NewtonCGSolver.solve settingsSimple imScalar [1] =
      Except.error (SolveError.conversionError ConvError.emptyStack) := by
  constructor
  · rfl
  · unfold NewtonCGSolver.solve
    rw [if_pos (show ([1] : Vec).length = imScalar.Vh_PARAMETER.dim from rfl)]
    unfold assembleResult
    dsimp only
    have hconv : ∀ w : Vec, convert_to_numpy w imScalar.Vh_PARAMETER =
        Except.error ConvError.emptyStack := by
      intro w
      rfl
    rw [hconv]

/-- C5 (amended): every solve call that passes input validation and whose parameter
and state spaces are numpy-convertible (at least one sub-space, equal-length dof
maps) returns a SolverResult carrying the driver diagnostics, whatever the
termination reason of the run. -/
theorem solve_total_after_validation_on_convertible_spaces (S : SolverSettings)
    (IM : InferenceModel) (guess : Vec)
    (hdim : guess.length = IM.Vh_PARAMETER.dim)
    (hP1 : 0 < IM.Vh_PARAMETER.numSubSpaces)
    (hP2 : ∀ i, i < IM.Vh_PARAMETER.numSubSpaces →
      (IM.Vh_PARAMETER.subDofs i).length = (IM.Vh_PARAMETER.subDofs 0).length)
    (hV1 : 0 < IM.Vh_STATE.numSubSpaces)
    (hV2 : ∀ i, i < IM.Vh_STATE.numSubSpaces →
      (IM.Vh_STATE.subDofs i).length = (IM.Vh_STATE.subDofs 0).length) :
    ∃ r, NewtonCGSolver.solve S IM guess = Except.ok r ∧
      r.converged = (coreSolve S IM.model
        (convert_to_dolfin [npCopy guess] IM.Vh_PARAMETER)).converged ∧
      r.termination_reason = (coreSolve S IM.model
        (convert_to_dolfin [npCopy guess] IM.Vh_PARAMETER)).termination_reason ∧
      r.num_iterations = (coreSolve S IM.model
        (convert_to_dolfin [npCopy guess] IM.Vh_PARAMETER)).num_iterations := by
  unfold NewtonCGSolver.solve
  rw [if_pos hdim]
  unfold assembleResult
  dsimp only
  rw [convert_to_numpy_ok IM.Vh_PARAMETER _ hP1 hP2,
    convert_to_numpy_ok IM.Vh_STATE _ hV1 hV2,
    convert_to_numpy_ok IM.Vh_STATE _ hV1 hV2]
  exact ⟨_, rfl, rfl, rfl, rfl⟩

/-- Witness for C5 (amended) at concrete inputs: the size-one guess on the quadratic
model with convertible spaces yields a SolverResult with the driver diagnostics. -/
theorem solve_total_witness :
    ∃ r, NewtonCGSolver.solve settingsSimple imQuad [1] = Except.ok r ∧
      r.converged = (coreSolve settingsSimple imQuad.model
        (convert_to_dolfin [npCopy [1]] imQuad.Vh_PARAMETER)).converged ∧
      r.termination_reason = (coreSolve settingsSimple imQuad.model
        (convert_to_dolfin [npCopy [1]] imQuad.Vh_PARAMETER)).termination_reason ∧
      r.num_iterations = (coreSolve settingsSimple imQuad.model
        (convert_to_dolfin [npCopy [1]] imQuad.Vh_PARAMETER)).num_iterations :=
  solve_total_after_validation_on_convertible_spaces settingsSimple imQuad [1] rfl
    Nat.one_pos (fun _ _ => rfl) Nat.one_pos (fun _ _ => rfl)

/-- C10: convert_to_numpy fails on every space with zero sub-spaces (np.stack of an
empty component list), making the result conversion of solve fail for such parameter
spaces; on a space with at least one sub-space and equal-length dof maps it returns
an array of shape (num_components, dofs_per_component). -/
theorem convert_to_numpy_totality (fs : FunctionSpace) (v : Vec) :
    (fs.numSubSpaces = 0 →
      convert_to_numpy v fs = Except.error ConvError.emptyStack) ∧
    ((0 < fs.numSubSpaces ∧ ∀ i, i < fs.numSubSpaces →
        (fs.subDofs i).length = (fs.subDofs 0).length) →
      ∃ a, convert_to_numpy v fs = Except.ok a ∧ a.length = fs.numSubSpaces ∧
        ∀ row, row ∈ a → row.length = (fs.subDofs 0).length) ∧
    (∀ (S : SolverSettings) (IM : InferenceModel) (guess : Vec),
      IM.Vh_PARAMETER = fs → guess.length = fs.dim → fs.numSubSpaces = 0 →
      NewtonCGSolver.solve S IM guess =
        Except.error (SolveError.conversionError ConvError.emptyStack)) := by
  refine ⟨?_, ?_, ?_⟩
  · intro h0
    unfold convert_to_numpy
    rw [h0]
    rfl
  · rintro ⟨h1, h2⟩
    refine ⟨_, convert_to_numpy_ok fs v h1 h2, by simp, ?_⟩
    intro row hrow
    rw [List.mem_map] at hrow
    obtain ⟨i, hi, hri⟩ := hrow
    rw [List.mem_range] at hi
    subst hri
    simp only [npIndex, List.length_map]
    exact h2 i hi
  · intro S IM guess hfs hlen h0
    unfold NewtonCGSolver.solve
    rw [hfs]
    rw [if_pos hlen]
    unfold assembleResult
    dsimp only
    rw [hfs]
    have hconv : ∀ w : Vec, convert_to_numpy w fs =
        Except.error ConvError.emptyStack := by
      intro w
      unfold convert_to_numpy
      rw [h0]
      rfl
    rw [hconv]

/-- Witness for C10 at concrete inputs: the zero-sub-space scalar space is rejected
by convert_to_numpy and makes a validated solve call fail, while the one-sub-space
space converts with the declared shape. -/
theorem convert_to_numpy_totality_witness :
    convert_to_numpy [1] fsNoSub = Except.error ConvError.emptyStack ∧
    NewtonCGSolver.solve settingsSimple imScalar [1] =
      Except.error (SolveError.conversionError ConvError.emptyStack) ∧
    (∃ a, convert_to_numpy [1] fsScalar1 = Except.ok a ∧
      a.length = fsScalar1.numSubSpaces ∧
      ∀ row, row ∈ a → row.length = (fsScalar1.subDofs 0).length) := by
  refine ⟨(convert_to_numpy_totality fsNoSub [1]).1 rfl, ?_, ?_⟩
  · exact (convert_to_numpy_totality fsNoSub [1]).2.2 settingsSimple imScalar [1]
      rfl rfl rfl
  · exact (convert_to_numpy_totality fsScalar1 [1]).2.1
      ⟨Nat.one_pos, fun _ _ => rfl⟩

/-- C9 counterexample: with the interleaved sub-space dof maps a dolfin vector
function space typically has, converting a 2 by 2 array to dolfin and back does not
return the original array (the rows come back transposed). -/
theorem roundtrip_counterexample :
    convert_to_numpy (convert_to_dolfin [[1, 2], [3, 4]] fsInterleaved)
        fsInterleaved ≠ Except.ok [[1, 2], [3, 4]] := by
  have hval : convert_to_numpy (convert_to_dolfin [[1, 2], [3, 4]] fsInterleaved)
      fsInterleaved = Except.ok [[1, 3], [2, 4]] := by
    norm_num [convert_to_numpy, convert_to_dolfin, npFlatten, npStack, npIndex,
      fsInterleaved, List.range_succ]
  rw [hval]
  intro hcontra
  rw [Except.ok.injEq] at hcontra
  norm_num at hcontra

/-- Unfolding of npFlatten on a nonempty array. -/
theorem npFlatten_cons (c : Vec) (cs : List Vec) :
    npFlatten (c :: cs) = c ++ npFlatten cs := rfl

/-- Reconstructing a list from positional reads: mapping a default-read over the
range of its length is the identity. -/
theorem map_range_getD {α : Type} (x : α) (l : List α) :
    (List.range l.length).map (fun j => l.getD j x) = l := by
  induction l with
  | nil => rfl
  | cons c cs ih =>
    rw [List.length_cons, List.range_succ_eq_map, List.map_cons, List.map_map]
    have hcomp : ((fun j => (c :: cs).getD j x) ∘ Nat.succ) =
        fun j => cs.getD j x := by
      funext j
      simp only [Function.comp_apply, List.getD_cons_succ]
    rw [hcomp, List.getD_cons_zero, ih]

/-- Positional reads through npFlatten of an array with rows of uniform length d:
entry (i, j) of the array sits at flat position i * d + j. -/
theorem npFlatten_getD (d : ℕ) :
    ∀ (a : List Vec) (i j : ℕ), (∀ r, r ∈ a → r.length = d) → i < a.length →
      j < d → (npFlatten a).getD (i * d + j) 0 = (a.getD i []).getD j 0 := by
  intro a
  induction a with
  | nil =>
    intro i j _ hi _
    exact absurd hi (by simp)
  | cons c cs ih =>
    intro i j hu hi hj
    have hc : c.length = d := hu c (List.mem_cons_self c cs)
    cases i with
    | zero =>
      rw [npFlatten_cons, List.getD_cons_zero, Nat.zero_mul, Nat.zero_add]
      exact List.getD_append c (npFlatten cs) 0 j (by rw [hc]; exact hj)
    | succ i2 =>
      rw [npFlatten_cons, List.getD_cons_succ]
      have harith : (i2 + 1) * d + j = c.length + (i2 * d + j) := by
        rw [hc]
        ring
      rw [harith,
        List.getD_append_right c (npFlatten cs) 0 _ (Nat.le_add_right _ _),
        Nat.add_sub_cancel_left]
      exact ih i2 j (fun r hr => hu r (List.mem_cons_of_mem c hr))
        (Nat.lt_of_succ_lt_succ hi) hj

/-- C9 (amended): the round trip holds for block-ordered dof maps: when every
sub-space dof map is the consecutive index block of size d, the array has one
length-d row per sub-space, and there is at least one sub-space, converting to
dolfin and back returns the original array. -/
theorem roundtrip_blocked_dofmaps (fs : FunctionSpace) (d : ℕ) (a : List Vec)
    (hblock : ∀ i, i < fs.numSubSpaces →
      fs.subDofs i = (List.range d).map (fun j => i * d + j))
    (hrows : ∀ r, r ∈ a → r.length = d)
    (hlen : a.length = fs.numSubSpaces)
    (hpos : 0 < fs.numSubSpaces) :
    convert_to_numpy (convert_to_dolfin a fs) fs = Except.ok a := by
  have hcompi : ∀ i, i < fs.numSubSpaces →
      npIndex (npFlatten a) (fs.subDofs i) = a.getD i [] := by
    intro i hi
    rw [hblock i hi]
    unfold npIndex
    rw [List.map_map]
    have hi2 : i < a.length := by omega
    have hrowlen : (a.getD i []).length = d := by
      rw [List.getD_eq_getElem a [] hi2]
      exact hrows _ (List.getElem_mem hi2)
    have hstep : ∀ j ∈ List.range d,
        ((fun idx => (npFlatten a).getD idx 0) ∘ fun j => i * d + j) j =
          (fun j => (a.getD i []).getD j 0) j := by
      intro j hj
      rw [List.mem_range] at hj
      simp only [Function.comp_apply]
      exact npFlatten_getD d a i j hrows hi2 hj
    rw [List.map_congr_left hstep, ← hrowlen]
    exact map_range_getD 0 (a.getD i [])
  unfold convert_to_numpy convert_to_dolfin
  have hmap : (List.range fs.numSubSpaces).map
      (fun i => npIndex (npFlatten a) (fs.subDofs i)) = a := by
    have h1 : ∀ i ∈ List.range fs.numSubSpaces,
        npIndex (npFlatten a) (fs.subDofs i) = (fun i => a.getD i []) i :=
      fun i hi => hcompi i (List.mem_range.mp hi)
    rw [List.map_congr_left h1, ← hlen]
    exact map_range_getD [] a
  rw [hmap]
  refine npStack_ok a d ?_ hrows
  intro hnil
  rw [hnil] at hlen
  simp only [List.length_nil] at hlen
  omega

/-- A two-component space of dimension four whose sub-space dof maps are the
consecutive blocks of size two. -/
def fsBlocked : FunctionSpace where
  numSubSpaces := 2
  subDofs := fun i => if i = 0 then [0, 1] else [2, 3]
  dim := 4

/-- Witness for C9 (amended) at concrete inputs: on the block-ordered space the
round trip returns the original 2 by 2 array. -/
theorem roundtrip_blocked_witness :
    convert_to_numpy (convert_to_dolfin [[1, 2], [3, 4]] fsBlocked) fsBlocked =
      Except.ok [[1, 2], [3, 4]] := by
  refine roundtrip_blocked_dofmaps fsBlocked 2 [[1, 2], [3, 4]] ?_ ?_ rfl
    (by decide)
  · intro i hi
    have hi2 : i < 2 := hi
    interval_cases i
    · rfl
    · rfl
  · intro r hr
    simp only [List.mem_cons, List.not_mem_nil, or_false] at hr
    rcases hr with rfl | rfl
    · rfl
    · rfl

/-- C7: two successive solve calls on solver instances share no mutable state: after
any first call, a second call returns exactly the result it would return as the
first call on the instance, because each run is a pure function of the
configuration, the model, and its own guess. -/
theorem solve_calls_independent (st : NewtonCGSolverState) (g1 g2 : Vec) :
    ((st.solveCall g1).2.solveCall g2).1 = (st.solveCall g2).1 := by
  unfold NewtonCGSolverState.solveCall
  cases h1 : NewtonCGSolver.solve st.settings st.inference_model g1 with
  | ok r =>
    dsimp only
    cases h2 : NewtonCGSolver.solve st.settings st.inference_model g2 with
    | ok r2 => rfl
    | error e2 => rfl
  | error e =>
    dsimp only

/-- C8: solve does not mutate the caller's initial-guess buffer: the only writes of a
call are two fresh allocations (the initial_guess.copy() buffer and the dolfin dof
vector that set_local fills), so the caller's buffer is unchanged after the call,
and the returned value is the pure solve of the buffer contents. -/
theorem solve_preserves_initial_guess (S : SolverSettings) (IM : InferenceModel)
    (h : Heap) (r : ℕ) (hr : r < h.length) :
    heapGet (NewtonCGSolver.solveOnHeap S IM h r).2 r = heapGet h r ∧
    (NewtonCGSolver.solveOnHeap S IM h r).1 =
      NewtonCGSolver.solve S IM (heapGet h r) := by
  unfold NewtonCGSolver.solveOnHeap
  dsimp only
  constructor
  · split
    · unfold heapGet
      exact List.getD_append h _ [] r hr
    · rfl
  · split
    · rfl
    · rfl

/-- Witness for C8 at concrete inputs: a one-buffer store passes through a solve call
unchanged at the caller's reference. -/
theorem solve_preserves_initial_guess_witness :
    heapGet (NewtonCGSolver.solveOnHeap settingsSimple imQuad [[1]] 0).2 0 =
      heapGet [[1]] 0 ∧
    (NewtonCGSolver.solveOnHeap settingsSimple imQuad [[1]] 0).1 =
      NewtonCGSolver.solve settingsSimple imQuad (heapGet [[1]] 0) :=
  solve_preserves_initial_guess settingsSimple imQuad [[1]] 0 (by decide)
